import Mathlib

/-!
Verification development for the Salvium Vault web wallet scan engine.

Part 1 embeds the Phase-2 worker (src/wallet/phase2.worker.js): sparse-data
integrity verification, ingestion with a scoped engine-heap buffer, the
worker-local batch checkpoint marker, and the message dispatcher.

Part 2 models the ScanJournal service (detectGaps, recordScannedChunks,
flushPendingUpdates, validateAndResume) from its specification, since only
its unit tests ship in the repository.
-/

/-- Worker-local batch checkpoint marker, mirroring the module-level
variable lastProcessedBatch initialised to id null, height 0, timestamp 0. -/
structure BatchMarker where
  id : Option String
  height : Nat
  timestamp : Nat
deriving DecidableEq

/-- Parsed result of the engine call ingest_sparse_transactions. Fields other
than success are optional because the worker reads them defensively with
JavaScript or-defaults. -/
structure IngestResult where
  success : Bool
  txs_matched : Option Nat
  txs_processed : Option Nat
  balance_change : Option String
  stake_heights : Option (List Nat)
  error : Option String
deriving DecidableEq

/-- Parsed result of restore_from_seed. -/
structure RestoreResult where
  success : Bool
  error : Option String
deriving DecidableEq

/-- Parsed result of the engine get_balance call. -/
structure BalanceResult where
  balance : Option String
  unlocked_balance : Option String
deriving DecidableEq

/-- One transfer record, as read by the get_stake_heights handler. -/
structure TransferRec where
  type : String
  height : Nat
deriving DecidableEq

/-- Parsed result of get_transfers_as_json; the handler only reads the
incoming list. -/
structure TransfersResult where
  inList : Option (List TransferRec)
deriving DecidableEq

/-- Opaque wallet engine and platform crypto, as seen from the worker.
An Except error value models a thrown JavaScript exception; for the
allocator a returned 0 models a null pointer (falsy in JavaScript). -/
structure Engine where
  wasmLoadOk : Bool
  subtleDigest : List Nat → Option String
  allocate_binary_buffer : Nat → Nat
  ingest_sparse_transactions : Nat → Nat → Nat → Bool → Except String IngestResult
  restore_from_seed : String → String → Except String RestoreResult
  get_balance : Except String BalanceResult
  get_transfers_as_json : Except String TransfersResult

/-- Mutable module-level worker state: wasmModule, walletInstance and
isInitialized presence flags plus the batch marker. -/
structure WorkerState where
  wasmLoaded : Bool
  hasWallet : Bool
  isInitialized : Bool
  lastProcessedBatch : BatchMarker
deriving DecidableEq

/-- Worker state at script start. -/
def initialWorkerState : WorkerState :=
  ⟨false, false, false, ⟨none, 0, 0⟩⟩

/-- Observable side effects of one worker call: digest computation, engine
buffer allocation, ingestion, buffer release, and engine reads. -/
inductive WEvent where
  | digest
  | alloc (len ptr : Nat)
  | ingest (ptr len startHeight : Nat) (skipPrefilter : Bool)
  | free (ptr : Nat)
  | engineBalance
  | engineTransfers
  | engineRestore
deriving DecidableEq

/-- JavaScript truthiness of an optional string: undefined, null and the
empty string are falsy. -/
def jsTruthyStr : Option String → Bool
  | none => false
  | some s => if s = "" then false else true

/-- JavaScript expression x or-else null for an optional string. -/
def jsOrNull : Option String → Option String
  | none => none
  | some s => if s = "" then none else some s

/-- JavaScript expression x or-else d for an optional string default. -/
def jsOrDefault (o : Option String) (d : String) : String :=
  match o with
  | none => d
  | some s => if s = "" then d else s

/-- Embedding of verifySparseDataIntegrity: with no (or empty, hence falsy)
expected hash it accepts immediately; otherwise it computes the SHA-256
digest and compares, and a digest-computation failure is rethrown as a
cryptographic-verification error. -/
def verifySparseDataIntegrity (eng : Engine) (data : List Nat)
    (expectedHash : Option String) : Except String Bool :=
  match expectedHash with
  | none => .ok true
  | some h =>
    if h = "" then .ok true
    else
      match eng.subtleDigest data with
      | none => .error "Cryptographic verification failed - cannot proceed safely"
      | some hex => .ok (decide (hex = h))

/-- Embedding of the allocate, copy, ingest, free section of
processSparseData: allocate a buffer (0 is a null pointer and throws),
ingest inside a try block, update the batch marker when the engine reports
success, and free the buffer in the finally block on every exit path. -/
def processCore (eng : Engine) (st : WorkerState) (data : List Nat)
    (startHeight : Nat) (batchId : Option String) (now : Nat)
    (vev : List WEvent) : Except String IngestResult × WorkerState × List WEvent :=
  let ptr := eng.allocate_binary_buffer data.length
  if ptr = 0 then
    (.error "Failed to allocate WASM buffer", st, vev ++ [.alloc data.length 0])
  else
    match eng.ingest_sparse_transactions ptr data.length startHeight true with
    | .error e =>
      (.error e, st,
        vev ++ [.alloc data.length ptr, .ingest ptr data.length startHeight true, .free ptr])
    | .ok result =>
      (.ok result,
        (if result.success then
          { st with lastProcessedBatch := ⟨jsOrNull batchId, startHeight, now⟩ }
        else st),
        vev ++ [.alloc data.length ptr, .ingest ptr data.length startHeight true, .free ptr])

/-- Embedding of processSparseData: reject when uninitialized, verify
integrity only when the expected hash is truthy, then run the core
allocate-ingest-free sequence. -/
def processSparseData (eng : Engine) (st : WorkerState) (data : List Nat)
    (startHeight : Nat) (batchId : Option String) (expectedHash : Option String)
    (now : Nat) : Except String IngestResult × WorkerState × List WEvent :=
  if ¬ (st.isInitialized = true ∧ st.hasWallet = true) then
    (.error "Wallet not initialized", st, [])
  else if jsTruthyStr expectedHash then
    match verifySparseDataIntegrity eng data expectedHash with
    | .error e => (.error e, st, [.digest])
    | .ok isValid =>
      if isValid then processCore eng st data startHeight batchId now [.digest]
      else (.error "Sparse data integrity check failed", st, [.digest])
  else
    processCore eng st data startHeight batchId now []

/-- Embedding of loadWasm: idempotent once loaded, otherwise the load
succeeds or fails as the platform dictates. -/
def loadWasm (eng : Engine) (st : WorkerState) : Bool × WorkerState :=
  if st.wasmLoaded then (true, st)
  else (eng.wasmLoadOk, { st with wasmLoaded := eng.wasmLoadOk })

/-- Embedding of initWallet: constructs the wallet instance, then restores
from seed; a restore failure throws after the instance variable is already
assigned, leaving isInitialized false but hasWallet true. -/
def initWallet (eng : Engine) (st : WorkerState) (seedHex password : String) :
    Except String Unit × WorkerState × List WEvent :=
  if st.wasmLoaded = false then (.error "WASM not loaded", st, [])
  else
    let st1 := { st with hasWallet := true }
    match eng.restore_from_seed seedHex password with
    | .error e => (.error e, st1, [.engineRestore])
    | .ok parsed =>
      if parsed.success then
        (.ok (), { st1 with isInitialized := true }, [.engineRestore])
      else
        (.error (jsOrDefault parsed.error "Failed to restore wallet"), st1, [.engineRestore])

/-- Requests accepted by the worker message handler. -/
inductive Request where
  | init (seedHex password : String) (wasmVersion : Option String)
  | process (sparseData : List Nat) (startHeight : Option Nat)
      (batchId : Option String) (expectedHash : Option String)
  | getCheckpoint
  | getBalance
  | getStakeHeights
  | unknown (t : String)
deriving DecidableEq

/-- The type string carried by a request message. -/
def Request.typeName : Request → String
  | .init _ _ _ => "init"
  | .process _ _ _ _ => "process"
  | .getCheckpoint => "get_checkpoint"
  | .getBalance => "get_balance"
  | .getStakeHeights => "get_stake_heights"
  | .unknown t => t

/-- A posted worker response; a field holding none models a field that is
absent from the posted message object. -/
structure Response where
  rtype : String
  id : Nat
  success : Option Bool
  error : Option String
  txsMatched : Option Nat
  txsProcessed : Option Nat
  balanceChange : Option String
  stakeHeights : Option (List Nat)
  lastSuccessfulBatch : Option BatchMarker
  lastProcessedBatch : Option BatchMarker
  balance : Option String
  unlockedBalance : Option String
deriving DecidableEq

/-- Response skeleton with only the type and the echoed id set. -/
def Response.base (t : String) (id : Nat) : Response :=
  ⟨t, id, none, none, none, none, none, none, none, none, none, none⟩

/-- The uniform catch-block response: the request type with the _result
suffix, the echoed id, success false, and the error message. -/
def errResponse (t : String) (id : Nat) (e : String) : Response :=
  { Response.base (t ++ "_result") id with success := some false, error := some e }

/-- Embedding of the self.onmessage dispatcher: routes a request to its
handler and normalizes every thrown error into the uniform catch response. -/
def handleMessage (eng : Engine) (st : WorkerState) (req : Request)
    (id : Nat) (now : Nat) : Response × WorkerState × List WEvent :=
  match req with
  | .init seedHex password _wasmVersion =>
    let (loaded, st1) := loadWasm eng st
    if loaded = false then
      (errResponse "init" id "Failed to load WASM", st1, [])
    else
      match initWallet eng st1 seedHex password with
      | (.error e, st2, ev) => (errResponse "init" id e, st2, ev)
      | (.ok _, st2, ev) =>
        ({ Response.base "init_result" id with success := some true }, st2, ev)
  | .process sparseData startHeight batchId expectedHash =>
    match processSparseData eng st sparseData (startHeight.getD 0) batchId expectedHash now with
    | (.error e, st', ev) => (errResponse "process" id e, st', ev)
    | (.ok result, st', ev) =>
      ({ Response.base "process_result" id with
          success := some result.success,
          txsMatched := some (result.txs_matched.getD 0),
          txsProcessed := some (result.txs_processed.getD 0),
          balanceChange := some (jsOrDefault result.balance_change "0"),
          stakeHeights := some (result.stake_heights.getD []),
          error := result.error,
          lastSuccessfulBatch := some st'.lastProcessedBatch }, st', ev)
  | .getCheckpoint =>
    ({ Response.base "checkpoint_result" id with
        lastProcessedBatch := some st.lastProcessedBatch }, st, [])
  | .getBalance =>
    if st.hasWallet = false then
      (errResponse "get_balance" id "Wallet not initialized", st, [])
    else
      match eng.get_balance with
      | .error e => (errResponse "get_balance" id e, st, [.engineBalance])
      | .ok parsed =>
        ({ Response.base "balance_result" id with
            balance := some (jsOrDefault parsed.balance "0"),
            unlockedBalance := some (jsOrDefault parsed.unlocked_balance "0") },
          st, [.engineBalance])
  | .getStakeHeights =>
    if st.hasWallet = false then
      (errResponse "get_stake_heights" id "Wallet not initialized", st, [])
    else
      match eng.get_transfers_as_json with
      | .error e => (errResponse "get_stake_heights" id e, st, [.engineTransfers])
      | .ok parsed =>
        ({ Response.base "stake_heights_result" id with
            stakeHeights :=
              some (((parsed.inList.getD []).filter
                (fun tx => decide (tx.type = "stake"))).map (fun tx => tx.height)) },
          st, [.engineTransfers])
  | .unknown t =>
    (errResponse t id ("Unknown message type: " ++ t), st, [])

/-- A benign concrete engine used to exercise the model on closed inputs. -/
def testEngine : Engine where
  wasmLoadOk := true
  subtleDigest := fun _ => some "aa"
  allocate_binary_buffer := fun _ => 1
  ingest_sparse_transactions := fun _ _ _ _ =>
    .ok ⟨true, some 1, some 1, some "0", some [], none⟩
  restore_from_seed := fun _ _ => .ok ⟨true, none⟩
  get_balance := .ok ⟨some "0", some "0"⟩
  get_transfers_as_json := .ok ⟨some []⟩

/-- A fully initialized worker state with a recorded prior successful batch. -/
def readyState : WorkerState :=
  ⟨true, true, true, ⟨some "b0", 5, 10⟩⟩

example :
    (handleMessage testEngine readyState (.process [1] (some 0) none (some "bb")) 9 99).1.success
      = some false := by decide

example :
    (handleMessage testEngine readyState (.process [1] (some 0) (some "b1") none) 9 99).2.1.lastProcessedBatch
      = ⟨some "b1", 0, 99⟩ := by decide

/-! Part 2: the ScanJournal service, modelled from the specification. Only
the unit tests of this module ship in the repository, so the definitions
below follow the specification text for the GapDetector, the buffered
journal write path, and the recovery validator. -/

/-- Modelled from the spec: alignment of a height down to the nearest
multiple of the chunk size (the ChunkModel, absent from src). -/
def alignDown (h cs : Nat) : Nat := h / cs * cs

/-- Modelled from the spec: the number of expected chunks covering the
right-open range from the aligned start to endHeight. -/
def expectedChunkCount (aligned endHeight cs : Nat) : Nat :=
  (endHeight - aligned + cs - 1) / cs

/-- Modelled from the spec: the full expected set of chunk-starts in the
right-open range, stepping by the chunk size, in ascending order. -/
def expectedChunkStarts (startHeight endHeight cs : Nat) : List Nat :=
  (List.range (expectedChunkCount (alignDown startHeight cs) endHeight cs)).map
    (fun i => alignDown startHeight cs + i * cs)

/-- Modelled from the spec: detectGaps of the GapDetector (absent from src;
only its unit tests are present). Returns, in ascending order, every
expected chunk-start not present in the scanned set. -/
def detectGaps (scannedChunkStarts : List Nat) (startHeight endHeight cs : Nat) :
    List Nat :=
  (expectedChunkStarts startHeight endHeight cs).filter
    (fun x => decide (x ∉ scannedChunkStarts))

example : detectGaps [0, 1000, 3000, 4000] 0 5000 1000 = [2000] := by decide

example : detectGaps [0, 2000] 500 3000 1000 = [1000] := by decide

example : detectGaps [] 0 3000 1000 = [0, 1000, 2000] := by decide

example : detectGaps [0, 1000, 2000] 0 2500 1000 = [] := by decide

/-- Scan phase of a journal entry. -/
inductive ScanPhase where
  | phase1
  | phase2
  | complete
deriving DecidableEq

/-- Modelled from the spec: a durable per-scan-session journal entry. -/
structure ScanJournalEntry where
  scanId : String
  walletAddress : String
  startHeight : Nat
  targetEndHeight : Nat
  scannedChunks : List Nat
  inProgressChunks : List Nat
  matchedChunks : List Nat
  phase : ScanPhase
  transactionsFound : Nat
  errorCount : Nat
  lastErrorMessage : Option String
  lastUpdateTimestamp : Nat
deriving DecidableEq

/-- Modelled from the spec: a durable per-wallet checkpoint. -/
structure ScanCheckpoint where
  lastCompletedHeight : Nat
  balanceAtCheckpoint : Nat
  heightAtCheckpoint : Nat
  timestamp : Nat
deriving DecidableEq

/-- Modelled from the spec: the in-memory dirty buffer of one scan session,
holding staged chunk-starts (tagged matched) and a pending tx counter. -/
structure PendingUpdate where
  scannedAdds : List Nat
  matchedAdds : List Nat
  pendingTxCount : Nat
deriving DecidableEq

/-- Empty dirty buffer. -/
def emptyPending : PendingUpdate := ⟨[], [], 0⟩

/-- Modelled from the spec: the journal store (keyed by scanId), the
checkpoint store (keyed by wallet address), and the in-memory pending
buffer (keyed by scanId), as association lists. -/
structure JournalState where
  journals : List (String × ScanJournalEntry)
  checkpoints : List (String × ScanCheckpoint)
  pending : List (String × PendingUpdate)
deriving DecidableEq

/-- First-match association-list lookup. -/
def lookupA {α : Type} : List (String × α) → String → Option α
  | [], _ => none
  | p :: rest, k => if p.1 = k then some p.2 else lookupA rest k

/-- Association-list update, replacing the first binding or appending. -/
def setAssoc {α : Type} : List (String × α) → String → α → List (String × α)
  | [], k, v => [(k, v)]
  | p :: rest, k, v => if p.1 = k then (k, v) :: rest else p :: setAssoc rest k v

/-- Duplicate-free list union used for chunk-set merging. -/
def unionL (a b : List Nat) : List Nat :=
  a ++ b.filter (fun x => decide (x ∉ a))

/-- Modelled from the spec: a fresh durable read of one journal entry. -/
def getJournalEntry (st : JournalState) (scanId : String) :
    Option ScanJournalEntry :=
  lookupA st.journals scanId

/-- Modelled from the spec: getCheckpoint, a read-only checkpoint lookup
returning none when absent. -/
def getCheckpoint (st : JournalState) (walletAddress : String) :
    Option ScanCheckpoint :=
  lookupA st.checkpoints walletAddress

/-- Modelled from the spec: getIncompleteJournal, the first journal entry of
the wallet whose phase is not complete, none when absent. -/
def getIncompleteJournal (st : JournalState) (walletAddress : String) :
    Option ScanJournalEntry :=
  (st.journals.find? (fun p =>
    decide (p.2.walletAddress = walletAddress ∧ p.2.phase ≠ ScanPhase.complete))).map
    (fun p => p.2)

/-- Modelled from the spec: startScanJournal creates (or replaces) an entry
with empty chunk sets, phase phase1 and zeroed counters. -/
def startScanJournal (st : JournalState) (scanId walletAddress : String)
    (startHeight targetEndHeight now : Nat) : JournalState :=
  let entry : ScanJournalEntry :=
    ⟨scanId, walletAddress, startHeight, targetEndHeight,
     [], [], [], .phase1, 0, 0, none, now⟩
  { st with journals := setAssoc st.journals scanId entry }

/-- Modelled from the spec: recordScannedChunks stages chunk-starts into the
in-memory dirty buffer (tagged matched) and accumulates the tx count into
the pending counter; it performs no durable write. -/
def recordScannedChunks (st : JournalState) (scanId : String)
    (chunkStarts : List Nat) (matched : Bool) (txCount : Nat) : JournalState :=
  let cur := (lookupA st.pending scanId).getD emptyPending
  let upd : PendingUpdate :=
    ⟨cur.scannedAdds ++ chunkStarts,
     (if matched then cur.matchedAdds ++ chunkStarts else cur.matchedAdds),
     cur.pendingTxCount + txCount⟩
  { st with pending := setAssoc st.pending scanId upd }

/-- Application of one pending buffer to one journal entry during a flush. -/
def applyPending (e : ScanJournalEntry) (u : PendingUpdate) (now : Nat) :
    ScanJournalEntry :=
  { e with scannedChunks := unionL e.scannedChunks u.scannedAdds,
           matchedChunks := unionL e.matchedChunks u.matchedAdds,
           transactionsFound := e.transactionsFound + u.pendingTxCount,
           lastUpdateTimestamp := now }

/-- Flush action on one keyed journal entry: apply its pending buffer when
one exists. -/
def flushEntry (pending : List (String × PendingUpdate)) (now : Nat)
    (k : String) (e : ScanJournalEntry) : ScanJournalEntry :=
  match lookupA pending k with
  | none => e
  | some u => applyPending e u now

/-- Modelled from the spec: flushPendingUpdates persists every buffered
mutation, atomically per scanId entry, and clears the buffer. -/
def flushPendingUpdates (st : JournalState) (now : Nat) : JournalState :=
  { journals := st.journals.map (fun p => (p.1, flushEntry st.pending now p.1 p.2)),
    checkpoints := st.checkpoints,
    pending := [] }

/-- Decision record returned by validateAndResume. -/
structure ResumeDecision where
  canResume : Bool
  needsFullRescan : Bool
  lastCompletedHeight : Nat
deriving DecidableEq

/-- Modelled from the spec: the contiguous-from-start frontier, the largest
height H such that every chunk-start below H from the aligned start is in
the scanned set. -/
def contiguousFrontier (scanned : List Nat) (aligned targetEnd cs : Nat) : Nat :=
  aligned + cs *
    ((List.range ((targetEnd - aligned) / cs + 1)).takeWhile
      (fun i => decide (aligned + i * cs ∈ scanned))).length

/-- Modelled from the spec: validateAndResume computes the contiguous
frontier of the wallet incomplete journal; with no journal it falls back to
the checkpoint; with neither it requires a full rescan from height 0. -/
def validateAndResume (st : JournalState) (walletAddress : String)
    (targetEndHeight cs : Nat) : ResumeDecision :=
  match getIncompleteJournal st walletAddress with
  | some e =>
    ⟨true, false,
      contiguousFrontier e.scannedChunks (alignDown e.startHeight cs) targetEndHeight cs⟩
  | none =>
    match getCheckpoint st walletAddress with
    | some c => ⟨true, false, c.lastCompletedHeight⟩
    | none => ⟨false, true, 0⟩

example :
    validateAndResume ⟨[], [], []⟩ "w1" 50000 1000 = ⟨false, true, 0⟩ := by decide

/-! Helper lemmas about the worker model. -/

/-- Shape of the event trace of the core allocate-ingest-free sequence. -/
theorem processCore_events (eng : Engine) (st : WorkerState) (data : List Nat)
    (sh : Nat) (b : Option String) (now : Nat) (vev : List WEvent) :
    (processCore eng st data sh b now vev).2.2 = vev ++ [.alloc data.length 0] ∨
    (processCore eng st data sh b now vev).2.2 =
      vev ++ [.alloc data.length (eng.allocate_binary_buffer data.length),
              .ingest (eng.allocate_binary_buffer data.length) data.length sh true,
              .free (eng.allocate_binary_buffer data.length)] := by
  unfold processCore
  by_cases h0 : eng.allocate_binary_buffer data.length = 0
  · left
    simp [h0]
  · right
    cases hi : eng.ingest_sparse_transactions (eng.allocate_binary_buffer data.length)
        data.length sh true <;> simp [h0, hi]

/-- Marker update discipline of the core sequence. -/
theorem processCore_marker (eng : Engine) (st : WorkerState) (data : List Nat)
    (sh : Nat) (b : Option String) (now : Nat) (vev : List WEvent) :
    (processCore eng st data sh b now vev).2.1.lastProcessedBatch =
      (match (processCore eng st data sh b now vev).1 with
       | .ok r =>
         if r.success then (⟨jsOrNull b, sh, now⟩ : BatchMarker)
         else st.lastProcessedBatch
       | .error _ => st.lastProcessedBatch) := by
  unfold processCore
  by_cases h0 : eng.allocate_binary_buffer data.length = 0
  · simp [h0]
  · cases hi : eng.ingest_sparse_transactions (eng.allocate_binary_buffer data.length)
        data.length sh true with
    | error e => simp [h0, hi]
    | ok r => cases hr : r.success <;> simp [h0, hi, hr]

/-- C8: the worker-local batch marker is overwritten with the batch id (a
falsy id normalised to null), the start height and the current time exactly
when ingestion reports success, and keeps its previous value on every
failing or throwing process call. -/
theorem C8_marker_update (eng : Engine) (st : WorkerState) (data : List Nat)
    (sh : Nat) (b eh : Option String) (now : Nat) :
    (processSparseData eng st data sh b eh now).2.1.lastProcessedBatch =
      (match (processSparseData eng st data sh b eh now).1 with
       | .ok r =>
         if r.success then (⟨jsOrNull b, sh, now⟩ : BatchMarker)
         else st.lastProcessedBatch
       | .error _ => st.lastProcessedBatch) := by
  unfold processSparseData
  by_cases h1 : st.isInitialized = true ∧ st.hasWallet = true
  · by_cases h2 : jsTruthyStr eh = true
    · cases hv : verifySparseDataIntegrity eng data eh with
      | error e => simp [h1, h2, hv]
      | ok isValid =>
        cases isValid
        · simp [h1, h2, hv]
        · simp [h1, h2, hv, processCore_marker]
    · simp [h1, h2, processCore_marker]
  · simp [h1]

/-- C9: whenever a process call successfully allocates an engine-heap buffer
(a nonzero pointer appears in an allocation event), a release event for that
same pointer also appears, on success, on engine-reported failure, and on a
thrown ingestion error alike. -/
theorem C9_buffer_freed (eng : Engine) (st : WorkerState) (data : List Nat)
    (sh : Nat) (b eh : Option String) (now : Nat) (len p : Nat)
    (hp : p ≠ 0)
    (hmem : WEvent.alloc len p ∈ (processSparseData eng st data sh b eh now).2.2) :
    WEvent.free p ∈ (processSparseData eng st data sh b eh now).2.2 := by
  by_cases h1 : st.isInitialized = true ∧ st.hasWallet = true
  · by_cases h2 : jsTruthyStr eh = true
    · cases hv : verifySparseDataIntegrity eng data eh with
      | error e =>
        have he : (processSparseData eng st data sh b eh now).2.2 = [.digest] := by
          unfold processSparseData
          simp [h1, h2, hv]
        rw [he] at hmem
        simp at hmem
      | ok isValid =>
        cases isValid with
        | false =>
          have he : (processSparseData eng st data sh b eh now).2.2 = [.digest] := by
            unfold processSparseData
            simp [h1, h2, hv]
          rw [he] at hmem
          simp at hmem
        | true =>
          have he : (processSparseData eng st data sh b eh now).2.2 =
              (processCore eng st data sh b now [.digest]).2.2 := by
            unfold processSparseData
            simp [h1, h2, hv]
          rw [he] at hmem ⊢
          rcases processCore_events eng st data sh b now [.digest] with hev | hev <;>
            rw [hev] at hmem ⊢ <;> simp_all
    · have he : (processSparseData eng st data sh b eh now).2.2 =
          (processCore eng st data sh b now []).2.2 := by
        unfold processSparseData
        simp [h1, h2]
      rw [he] at hmem ⊢
      rcases processCore_events eng st data sh b now [] with hev | hev <;>
        rw [hev] at hmem ⊢ <;> simp_all
  · have he : (processSparseData eng st data sh b eh now).2.2 = [] := by
      unfold processSparseData
      simp [h1]
    rw [he] at hmem
    simp at hmem

/-- C9 witness: a concrete successful run allocates pointer 1 and frees it. -/
theorem C9_witness :
    WEvent.free 1 ∈ (processSparseData testEngine readyState [5] 0 none none 99).2.2 :=
  C9_buffer_freed testEngine readyState [5] 0 none none 99 1 1
    (by decide) (by decide)

/-- C10: with an absent or empty expected hash no digest is ever computed,
the call behaves exactly as a call with no hash at all, and on an
initialized worker ingestion proceeds whenever allocation succeeds. -/
theorem C10_verification_opt_in (eng : Engine) (st : WorkerState) (data : List Nat)
    (sh : Nat) (b eh : Option String) (now : Nat)
    (hfalsy : jsTruthyStr eh = false) :
    WEvent.digest ∉ (processSparseData eng st data sh b eh now).2.2 ∧
    processSparseData eng st data sh b eh now =
      processSparseData eng st data sh b none now ∧
    (st.isInitialized = true → st.hasWallet = true →
      eng.allocate_binary_buffer data.length ≠ 0 →
      WEvent.ingest (eng.allocate_binary_buffer data.length) data.length sh true ∈
        (processSparseData eng st data sh b eh now).2.2) := by
  refine ⟨?_, ?_, ?_⟩
  · by_cases h1 : st.isInitialized = true ∧ st.hasWallet = true
    · have he : (processSparseData eng st data sh b eh now).2.2 =
          (processCore eng st data sh b now []).2.2 := by
        unfold processSparseData
        simp [h1, hfalsy]
      rw [he]
      rcases processCore_events eng st data sh b now [] with hev | hev <;>
        rw [hev] <;> simp
    · have he : (processSparseData eng st data sh b eh now).2.2 = [] := by
        unfold processSparseData
        simp [h1]
      rw [he]
      simp
  · unfold processSparseData
    have h0 : jsTruthyStr none = false := rfl
    simp [hfalsy, h0]
  · intro hi hw hptr
    have he : (processSparseData eng st data sh b eh now).2.2 =
        (processCore eng st data sh b now []).2.2 := by
      unfold processSparseData
      simp [hi, hw, hfalsy]
    rw [he]
    unfold processCore
    cases hing : eng.ingest_sparse_transactions (eng.allocate_binary_buffer data.length)
        data.length sh true <;> simp [hptr, hing]

/-- C10 witness: a concrete call without an expected hash computes no digest
and performs the ingestion. -/
theorem C10_witness :
    WEvent.digest ∉ (processSparseData testEngine readyState [5] 0 none none 99).2.2 ∧
    WEvent.ingest 1 1 0 true ∈ (processSparseData testEngine readyState [5] 0 none none 99).2.2 := by
  have h := C10_verification_opt_in testEngine readyState [5] 0 none none 99 rfl
  exact ⟨h.1, h.2.2 rfl rfl (by decide)⟩

/-- C1: a process request with a truthy expected hash whose digest either
cannot be computed or differs from the hash answers success false with one
of the two integrity error messages, and the ingestion entrypoint is never
invoked. -/
theorem C1_integrity_fail_closed (eng : Engine) (st : WorkerState) (data : List Nat)
    (sh : Option Nat) (b : Option String) (h : String) (id now : Nat)
    (hready : st.isInitialized = true) (hw : st.hasWallet = true)
    (hne : h ≠ "")
    (hbad : ∀ hex, eng.subtleDigest data = some hex → hex ≠ h) :
    (handleMessage eng st (.process data sh b (some h)) id now).1.success = some false ∧
    ((handleMessage eng st (.process data sh b (some h)) id now).1.error =
        some "Sparse data integrity check failed" ∨
     (handleMessage eng st (.process data sh b (some h)) id now).1.error =
        some "Cryptographic verification failed - cannot proceed safely") ∧
    (∀ q l s k, WEvent.ingest q l s k ∉
      (handleMessage eng st (.process data sh b (some h)) id now).2.2) := by
  cases hd : eng.subtleDigest data with
  | none =>
    have hps : processSparseData eng st data (sh.getD 0) b (some h) now =
        (.error "Cryptographic verification failed - cannot proceed safely", st, [.digest]) := by
      unfold processSparseData verifySparseDataIntegrity
      simp [hready, hw, jsTruthyStr, hne, hd]
    refine ⟨?_, Or.inr ?_, ?_⟩ <;> simp [handleMessage, hps, errResponse, Response.base]
  | some hex =>
    have hx : hex ≠ h := hbad hex hd
    have hps : processSparseData eng st data (sh.getD 0) b (some h) now =
        (.error "Sparse data integrity check failed", st, [.digest]) := by
      unfold processSparseData verifySparseDataIntegrity
      simp [hready, hw, jsTruthyStr, hne, hd, hx]
    refine ⟨?_, Or.inl ?_, ?_⟩ <;> simp [handleMessage, hps, errResponse, Response.base]

/-- C1 witness: a concrete mismatching hash yields a failed response and no
ingestion event. -/
theorem C1_witness :
    (handleMessage testEngine readyState (.process [1] (some 0) none (some "bb")) 9 99).1.success
      = some false ∧
    WEvent.ingest 1 1 0 true ∉
      (handleMessage testEngine readyState (.process [1] (some 0) none (some "bb")) 9 99).2.2 := by
  have h := C1_integrity_fail_closed testEngine readyState [1] (some 0) none "bb" 9 99
    rfl rfl (by decide) (by intro hex he; simp [testEngine] at he; subst he; decide)
  exact ⟨h.1, h.2.2 1 1 0 true⟩

/-- C2 counterexample: a process call failing the integrity check yields a
failure response that carries no lastSuccessfulBatch field, even though a
prior successful batch marker exists in the worker state. -/
theorem C2_counterexample :
    readyState.lastProcessedBatch = ⟨some "b0", 5, 10⟩ ∧
    (handleMessage testEngine readyState (.process [1] (some 0) none (some "bb")) 9 99).1.success
      = some false ∧
    (handleMessage testEngine readyState (.process [1] (some 0) none (some "bb")) 9 99).1.lastSuccessfulBatch
      = none := by decide

/-- C2 amended: the process response carries lastSuccessfulBatch exactly when
processSparseData returns normally (ingestion ran, success or engine-reported
failure); responses built by the catch handler for thrown errors
(uninitialized engine, integrity failure, allocation failure, engine throw)
omit the field. -/
theorem C2_lastSuccessfulBatch (eng : Engine) (st : WorkerState) (data : List Nat)
    (sh : Option Nat) (b eh : Option String) (id now : Nat) :
    (handleMessage eng st (.process data sh b eh) id now).1.lastSuccessfulBatch =
      (match (processSparseData eng st data (sh.getD 0) b eh now).1 with
       | .ok _ => some (processSparseData eng st data (sh.getD 0) b eh now).2.1.lastProcessedBatch
       | .error _ => none) := by
  rcases hps : processSparseData eng st data (sh.getD 0) b eh now with ⟨res, st', ev⟩
  cases res <;> simp [handleMessage, hps, errResponse, Response.base]

/-- C5: validateAndResume for a wallet with no incomplete journal and no
checkpoint reports canResume false, needsFullRescan true and
lastCompletedHeight 0. -/
theorem C5_fresh_wallet (st : JournalState) (w : String) (targetEndHeight cs : Nat)
    (hj : getIncompleteJournal st w = none)
    (hc : getCheckpoint st w = none) :
    validateAndResume st w targetEndHeight cs = ⟨false, true, 0⟩ := by
  simp [validateAndResume, hj, hc]

/-- C5 witness: the empty store behaves as the claim states. -/
theorem C5_witness :
    validateAndResume ⟨[], [], []⟩ "w1" 50000 1000 = ⟨false, true, 0⟩ :=
  C5_fresh_wallet ⟨[], [], []⟩ "w1" 50000 1000 rfl rfl

/-- Engine whose restore call parses but reports failure: the init handler
then answers failure while the worker retains a constructed wallet
instance. -/
def engRestoreFail : Engine :=
  { testEngine with
    restore_from_seed := fun _ _ => .ok ⟨false, some "Invalid seed"⟩,
    get_balance := .ok ⟨some "42", some "42"⟩ }

/-- C7 counterexample: after an init whose restore fails, the worker is not
initialized, yet a get_balance request invokes the engine and even answers
without an error, because the handler only checks wallet-instance presence. -/
theorem C7_counterexample :
    (handleMessage engRestoreFail initialWorkerState (.init "s" "p" none) 1 0).1.success
      = some false ∧
    (handleMessage engRestoreFail initialWorkerState (.init "s" "p" none) 1 0).2.1.isInitialized
      = false ∧
    WEvent.engineBalance ∈
      (handleMessage engRestoreFail
        (handleMessage engRestoreFail initialWorkerState (.init "s" "p" none) 1 0).2.1
        .getBalance 2 0).2.2 ∧
    (handleMessage engRestoreFail
        (handleMessage engRestoreFail initialWorkerState (.init "s" "p" none) 1 0).2.1
        .getBalance 2 0).1.success = none := by decide

/-- C7 amended: a process request on an uninitialized worker fails with no
side effects at all, while get_balance and get_stake_heights are side-effect
free only when no wallet instance exists; if a failed init left an instance
behind they do invoke the engine. -/
theorem C7_uninitialized (eng : Engine) (st : WorkerState) (data : List Nat)
    (sh : Option Nat) (b eh : Option String) (id now : Nat)
    (huninit : st.isInitialized = false) :
    handleMessage eng st (.process data sh b eh) id now =
      (errResponse "process" id "Wallet not initialized", st, []) ∧
    (st.hasWallet = false →
      handleMessage eng st .getBalance id now =
        (errResponse "get_balance" id "Wallet not initialized", st, []) ∧
      handleMessage eng st .getStakeHeights id now =
        (errResponse "get_stake_heights" id "Wallet not initialized", st, [])) := by
  constructor
  · have hps : processSparseData eng st data (sh.getD 0) b eh now =
        (.error "Wallet not initialized", st, []) := by
      unfold processSparseData
      simp [huninit]
    simp [handleMessage, hps]
  · intro hw
    constructor <;> simp [handleMessage, hw]

/-- C7 witness: on the fresh worker state both process and get_balance fail
deterministically with no side effects. -/
theorem C7_witness :
    handleMessage testEngine initialWorkerState (.process [] (some 0) none none) 3 0 =
      (errResponse "process" 3 "Wallet not initialized", initialWorkerState, []) ∧
    handleMessage testEngine initialWorkerState .getBalance 3 0 =
      (errResponse "get_balance" 3 "Wallet not initialized", initialWorkerState, []) := by
  have h := C7_uninitialized testEngine initialWorkerState [] (some 0) none none 3 0 rfl
  exact ⟨h.1, (h.2 rfl).1⟩

/-- C6 counterexample: the response to a get_checkpoint request is typed
checkpoint_result, not get_checkpoint_result, and carries no success field. -/
theorem C6_counterexample :
    (handleMessage testEngine readyState .getCheckpoint 5 0).1.rtype = "checkpoint_result" ∧
    (handleMessage testEngine readyState .getCheckpoint 5 0).1.success = none ∧
    Request.typeName .getCheckpoint ++ "_result" ≠ "checkpoint_result" := by decide

/-- C6 amended: every response echoes the request id; any response without a
success field is one of the three shortened read-result types; any failure
response is typed with the request type plus the _result suffix; init and
process requests always answer with the suffixed type and a success field;
and, affirmatively, every get_checkpoint response, and every successful
get_balance and get_stake_heights response (wallet instance present, engine
read returned), carries its specific shortened type and no success field. -/
theorem C6_response_protocol (eng : Engine) (st : WorkerState) (req : Request)
    (id now : Nat) :
    (handleMessage eng st req id now).1.id = id ∧
    ((handleMessage eng st req id now).1.success = none →
      (handleMessage eng st req id now).1.rtype = "checkpoint_result" ∨
      (handleMessage eng st req id now).1.rtype = "balance_result" ∨
      (handleMessage eng st req id now).1.rtype = "stake_heights_result") ∧
    ((handleMessage eng st req id now).1.success = some false →
      (handleMessage eng st req id now).1.rtype = req.typeName ++ "_result") ∧
    (req.typeName = "init" ∨ req.typeName = "process" →
      (handleMessage eng st req id now).1.rtype = req.typeName ++ "_result" ∧
      (handleMessage eng st req id now).1.success.isSome = true) ∧
    (req = .getCheckpoint →
      (handleMessage eng st req id now).1.rtype = "checkpoint_result" ∧
      (handleMessage eng st req id now).1.success = none) ∧
    (req = .getBalance → st.hasWallet = true →
      ∀ parsed, eng.get_balance = Except.ok parsed →
        (handleMessage eng st req id now).1.rtype = "balance_result" ∧
        (handleMessage eng st req id now).1.success = none) ∧
    (req = .getStakeHeights → st.hasWallet = true →
      ∀ parsed, eng.get_transfers_as_json = Except.ok parsed →
        (handleMessage eng st req id now).1.rtype = "stake_heights_result" ∧
        (handleMessage eng st req id now).1.success = none) := by
  cases req <;>
    simp only [handleMessage, Request.typeName, errResponse, Response.base] <;>
    (repeat' split) <;> simp_all

/-- C6 witness: the protocol theorem applied to a concrete checkpoint read
and a concrete successful balance read. -/
theorem C6_witness :
    (handleMessage testEngine readyState .getCheckpoint 5 0).1.id = 5 ∧
    (handleMessage testEngine readyState .getCheckpoint 5 0).1.rtype = "checkpoint_result" ∧
    (handleMessage testEngine readyState .getCheckpoint 5 0).1.success = none ∧
    (handleMessage testEngine readyState .getBalance 6 0).1.rtype = "balance_result" ∧
    (handleMessage testEngine readyState .getBalance 6 0).1.success = none := by
  have h := C6_response_protocol testEngine readyState .getCheckpoint 5 0
  have hb := C6_response_protocol testEngine readyState .getBalance 6 0
  have hcp := h.2.2.2.2.1 rfl
  have hbal := hb.2.2.2.2.2.1 rfl rfl ⟨some "0", some "0"⟩ rfl
  exact ⟨h.1, hcp.1, hcp.2, hbal.1, hbal.2⟩

/-! Gap-detection arithmetic. -/

/-- Index bound against the ceiling-division chunk count. -/
theorem lt_ceilCount_iff (cs m i : Nat) (h : 0 < cs) :
    i < (m + cs - 1) / cs ↔ i * cs < m := by
  rw [Nat.lt_iff_add_one_le, Nat.le_div_iff_mul_le h, add_mul, one_mul]
  generalize i * cs = a
  omega

/-- Membership in the expected chunk-start enumeration is exactly being a
chunk-size multiple in the right-open aligned range. -/
theorem mem_expectedChunkStarts (s e cs x : Nat) (h : 0 < cs) :
    x ∈ expectedChunkStarts s e cs ↔
      cs ∣ x ∧ alignDown s cs ≤ x ∧ x < e := by
  unfold expectedChunkStarts expectedChunkCount
  simp only [List.mem_map, List.mem_range]
  constructor
  · rintro ⟨i, hi, rfl⟩
    rw [lt_ceilCount_iff cs (e - alignDown s cs) i h] at hi
    refine ⟨dvd_add (dvd_mul_left cs (s / cs)) (dvd_mul_left cs i),
      Nat.le_add_right _ _, ?_⟩
    revert hi
    generalize i * cs = a
    generalize alignDown s cs = A
    intro hi
    omega
  · rintro ⟨hdvd, hle, hlt⟩
    have hdA : cs ∣ alignDown s cs := dvd_mul_left cs (s / cs)
    have hsub : cs ∣ (x - alignDown s cs) := Nat.dvd_sub' hdvd hdA
    refine ⟨(x - alignDown s cs) / cs, ?_, ?_⟩
    · rw [lt_ceilCount_iff cs (e - alignDown s cs) _ h, Nat.div_mul_cancel hsub]
      omega
    · rw [Nat.div_mul_cancel hsub]
      omega

/-- The expected chunk-start enumeration is strictly ascending. -/
theorem pairwise_expectedChunkStarts (s e cs : Nat) (h : 0 < cs) :
    List.Pairwise (· < ·) (expectedChunkStarts s e cs) := by
  unfold expectedChunkStarts
  refine List.Pairwise.map _ ?_ (List.pairwise_lt_range _)
  intro a b hab
  exact Nat.add_lt_add_left ((Nat.mul_lt_mul_right h).mpr hab) _

/-- C3: detectGaps returns, in strictly ascending order, exactly the
chunk-size multiples of the right-open aligned range that were not scanned;
it is disjoint from the scanned set, its union with the scanned part of the
range is the full expected set, an empty scanned set yields the whole
expected enumeration, and a covered range yields the empty list. -/
theorem C3_detectGaps_correct (scanned : List Nat) (s e cs : Nat) (h : 0 < cs) :
    List.Pairwise (· < ·) (detectGaps scanned s e cs) ∧
    (∀ x, x ∈ detectGaps scanned s e cs ↔
      (cs ∣ x ∧ alignDown s cs ≤ x ∧ x < e ∧ x ∉ scanned)) ∧
    (∀ x, x ∈ scanned → x ∉ detectGaps scanned s e cs) ∧
    (∀ x, (cs ∣ x ∧ alignDown s cs ≤ x ∧ x < e) ↔
      (x ∈ detectGaps scanned s e cs ∨
       (x ∈ scanned ∧ cs ∣ x ∧ alignDown s cs ≤ x ∧ x < e))) ∧
    (scanned = [] → detectGaps scanned s e cs = expectedChunkStarts s e cs) ∧
    ((∀ x ∈ expectedChunkStarts s e cs, x ∈ scanned) →
      detectGaps scanned s e cs = []) := by
  have hmem : ∀ x, x ∈ detectGaps scanned s e cs ↔
      (cs ∣ x ∧ alignDown s cs ≤ x ∧ x < e ∧ x ∉ scanned) := by
    intro x
    unfold detectGaps
    rw [List.mem_filter, mem_expectedChunkStarts s e cs x h]
    simp only [decide_eq_true_eq]
    tauto
  refine ⟨?_, hmem, ?_, ?_, ?_, ?_⟩
  · exact List.Pairwise.sublist (List.filter_sublist _)
      (pairwise_expectedChunkStarts s e cs h)
  · intro x hx hgap
    exact ((hmem x).1 hgap).2.2.2 hx
  · intro x
    constructor
    · intro hx
      by_cases hs : x ∈ scanned
      · exact Or.inr ⟨hs, hx⟩
      · exact Or.inl ((hmem x).2 ⟨hx.1, hx.2.1, hx.2.2, hs⟩)
    · rintro (hg | hsx)
      · have h1 := (hmem x).1 hg
        exact ⟨h1.1, h1.2.1, h1.2.2.1⟩
      · exact hsx.2
  · intro hsc
    subst hsc
    unfold detectGaps
    apply List.filter_eq_self.mpr
    intro a _
    simp
  · intro hcov
    rw [List.eq_nil_iff_forall_not_mem]
    intro x hx
    have h1 := (hmem x).1 hx
    have h2 : x ∈ expectedChunkStarts s e cs :=
      (mem_expectedChunkStarts s e cs x h).2 ⟨h1.1, h1.2.1, h1.2.2.1⟩
    exact h1.2.2.2 (hcov x h2)

/-- C3 witness: the correctness theorem applied to the unit-test scenario
with one missing chunk. -/
theorem C3_witness :
    List.Pairwise (· < ·) (detectGaps [0, 1000, 3000, 4000] 0 5000 1000) ∧
    (2000 ∈ detectGaps [0, 1000, 3000, 4000] 0 5000 1000 ↔
      (1000 ∣ 2000 ∧ alignDown 0 1000 ≤ 2000 ∧ 2000 < 5000 ∧
        2000 ∉ [0, 1000, 3000, 4000])) := by
  have h := C3_detectGaps_correct [0, 1000, 3000, 4000] 0 5000 1000 (by decide)
  exact ⟨h.1, h.2.1 2000⟩

/-! Association-list lemmas for the journal store. -/

/-- Lookup after an update at the same key returns the new value. -/
theorem lookupA_setAssoc_self {α : Type} (l : List (String × α)) (k : String) (v : α) :
    lookupA (setAssoc l k v) k = some v := by
  induction l with
  | nil => simp [setAssoc, lookupA]
  | cons p rest ih =>
    by_cases hp : p.1 = k
    · simp [setAssoc, lookupA, hp]
    · simp [setAssoc, lookupA, hp, ih]

/-- Lookup commutes with a key-preserving map over the association list. -/
theorem lookupA_map_keyed {α : Type} (l : List (String × α)) (g : String → α → α)
    (k : String) :
    lookupA (l.map (fun p => (p.1, g p.1 p.2))) k = (lookupA l k).map (g k) := by
  induction l with
  | nil => simp [lookupA]
  | cons p rest ih =>
    by_cases hp : p.1 = k
    · simp [lookupA, hp]
    · simp [lookupA, hp, ih]

/-- Membership in the duplicate-free union. -/
theorem mem_unionL (a b : List Nat) (x : Nat) :
    x ∈ unionL a b ↔ x ∈ a ∨ x ∈ b := by
  simp only [unionL, List.mem_append, List.mem_filter, decide_eq_true_eq]
  tauto

/-- C4: recordScannedChunks touches neither the durable journal store nor
the checkpoint store, so a fresh read still sees the old entry; after
flushPendingUpdates the buffer is empty and the staged chunk additions and
pending transaction count are visible in the durable entry. -/
theorem C4_record_buffered_until_flush (st : JournalState) (scanId : String)
    (chunks : List Nat) (matched : Bool) (tx now : Nat) :
    (recordScannedChunks st scanId chunks matched tx).journals = st.journals ∧
    (recordScannedChunks st scanId chunks matched tx).checkpoints = st.checkpoints ∧
    getJournalEntry (recordScannedChunks st scanId chunks matched tx) scanId =
      getJournalEntry st scanId ∧
    (flushPendingUpdates (recordScannedChunks st scanId chunks matched tx) now).pending
      = [] ∧
    (∀ e, getJournalEntry st scanId = some e →
      ∃ e', getJournalEntry
          (flushPendingUpdates (recordScannedChunks st scanId chunks matched tx) now)
          scanId = some e' ∧
        (∀ c, c ∈ chunks → c ∈ e'.scannedChunks) ∧
        (matched = true → ∀ c, c ∈ chunks → c ∈ e'.matchedChunks) ∧
        e'.transactionsFound = e.transactionsFound +
          (((lookupA st.pending scanId).getD emptyPending).pendingTxCount + tx)) := by
  refine ⟨rfl, rfl, rfl, rfl, ?_⟩
  intro e he
  have hlook : getJournalEntry
      (flushPendingUpdates (recordScannedChunks st scanId chunks matched tx) now)
      scanId =
      (lookupA st.journals scanId).map
        (flushEntry (recordScannedChunks st scanId chunks matched tx).pending now scanId) := by
    unfold getJournalEntry flushPendingUpdates
    exact lookupA_map_keyed st.journals _ scanId
  have hpend : lookupA (recordScannedChunks st scanId chunks matched tx).pending scanId =
      some (⟨((lookupA st.pending scanId).getD emptyPending).scannedAdds ++ chunks,
             (if matched then
                ((lookupA st.pending scanId).getD emptyPending).matchedAdds ++ chunks
              else ((lookupA st.pending scanId).getD emptyPending).matchedAdds),
             ((lookupA st.pending scanId).getD emptyPending).pendingTxCount + tx⟩ :
        PendingUpdate) := by
    unfold recordScannedChunks
    exact lookupA_setAssoc_self st.pending scanId _
  refine ⟨flushEntry (recordScannedChunks st scanId chunks matched tx).pending now scanId e,
    ?_, ?_, ?_, ?_⟩
  · rw [hlook]
    unfold getJournalEntry at he
    rw [he]
    rfl
  · intro c hc
    show c ∈ (flushEntry (recordScannedChunks st scanId chunks matched tx).pending
      now scanId e).scannedChunks
    unfold flushEntry
    rw [hpend]
    unfold applyPending
    exact (mem_unionL _ _ c).mpr (Or.inr (List.mem_append.mpr (Or.inr hc)))
  · intro hm c hc
    show c ∈ (flushEntry (recordScannedChunks st scanId chunks matched tx).pending
      now scanId e).matchedChunks
    unfold flushEntry
    rw [hpend]
    unfold applyPending
    subst hm
    simp only [if_true]
    exact (mem_unionL _ _ c).mpr (Or.inr (List.mem_append.mpr (Or.inr hc)))
  · show (flushEntry (recordScannedChunks st scanId chunks matched tx).pending
      now scanId e).transactionsFound = _
    unfold flushEntry
    rw [hpend]
    rfl

/-- Concrete journal entry used by the C4 witness. -/
def entryS1 : ScanJournalEntry :=
  ⟨"s1", "w1", 0, 10000, [], [], [], .phase1, 0, 0, none, 0⟩

/-- Concrete journal state holding one fresh entry and an empty buffer. -/
def stJ : JournalState := ⟨[("s1", entryS1)], [], []⟩

/-- C4 witness: recording two matched chunks leaves the durable store
untouched, and flushing makes the chunks and the transaction count visible. -/
theorem C4_witness :
    (recordScannedChunks stJ "s1" [0, 1000] true 5).journals = stJ.journals ∧
    ((getJournalEntry (flushPendingUpdates (recordScannedChunks stJ "s1" [0, 1000] true 5) 7)
        "s1").map
      (fun e => decide (0 ∈ e.scannedChunks ∧ 0 ∈ e.matchedChunks ∧
        e.transactionsFound = 5))) = some true := by
  have h := C4_record_buffered_until_flush stJ "s1" [0, 1000] true 5 7
  obtain ⟨e', he', hs, hm, ht⟩ := h.2.2.2.2 entryS1 rfl
  refine ⟨h.1, ?_⟩
  rw [he']
  have ht5 : e'.transactionsFound = 5 := by
    rw [ht]
    rfl
  have hall : 0 ∈ e'.scannedChunks ∧ 0 ∈ e'.matchedChunks ∧ e'.transactionsFound = 5 :=
    ⟨hs 0 (by decide), hm rfl 0 (by decide), ht5⟩
  simp only [Option.map_some']
  exact congrArg some (decide_eq_true hall)
